import Mathlib

/-!
Grab.cpp: the retrieve loop of `main`.

A shallow embedding of `src/Grab.cpp`.  The program opens two files, starts
the camera for `c_countOfImagesToGrab` images and then runs one loop: read the
clock, retrieve a grab result, read the clock again, print a timing line, and,
when the grab succeeded, write the image to the movie file and count it.

The vendor SDK, the clocks and the C library are not part of the program.
They are the environment, given here as the record `Sdk`: what each call
answers in the iteration in which it is made, and whether each `fopen`
returned a stream.  The program uses the two streams without testing them: a
run in which one of them is `NULL` is killed when that stream is first used,
at the latest by the `fclose` of lines 166 and 167.  Every exception is a
pylon `GenericException`.
-/

namespace Grab

/-! ## Constants -/

/-- Number of images to be grabbed (`static const uint32_t`, line 44). -/
def c_countOfImagesToGrab : Nat := 4651 * 20

/-- Line 46. -/
def hz_approx : Int := 4424

/-- Line 48: `const float num_frames = c_countOfImagesToGrab`.  The value 93020
is below 2^24, so the conversion to `float` is exact; so is the conversion of
`frames` in `frames > num_frames`, because `frames` stays between 0 and 93021
(`loop_counts`).  The comparison is therefore the comparison of integers. -/
def num_frames : Int := (c_countOfImagesToGrab : Int)

/-! ## Machine integers -/

/-- Value of a 32-bit two's complement `int` holding `x` modulo 2^32. -/
def wrapInt32 (x : Int) : Int := (x + 2 ^ 31) % 2 ^ 32 - 2 ^ 31

/-- Value of a 64-bit two's complement `long` holding `x` modulo 2^64. -/
def wrapInt64 (x : Int) : Int := (x + 2 ^ 63) % 2 ^ 64 - 2 ^ 63

/-- Conversion of an `int` to `size_t` (64 bits), as for the third argument of
`fwrite`. -/
def toSizeT (x : Int) : Nat := (x % 2 ^ 64).toNat

/-! ## The environment -/

/-- A `struct timespec` as filled by `clock_gettime`. -/
structure Timespec where
  tv_sec : Int
  tv_nsec : Int
  deriving Repr, DecidableEq

/-- What the program reads of a grab result: `GrabSucceeded()`, `GetWidth()`,
`GetHeight()` (both `uint32_t`) and the bytes at `GetBuffer()`. -/
structure GrabResult where
  grabSucceeded : Bool
  width : Nat
  height : Nat
  buffer : List Nat
  deriving Repr, DecidableEq

/-- Outcome of the SDK calls of one iteration (lines 111 to 154). -/
inductive Retrieve where
  /-- The call `RetrieveResult` throws a `GenericException`, the 5000 ms timeout included. -/
  | throws : Retrieve
  /-- The call `RetrieveResult` returns, and an accessor of the grab result throws. -/
  | accessorThrows : Retrieve
  /-- The call `RetrieveResult` returns this grab result and no accessor throws. -/
  | result : GrabResult → Retrieve
  deriving Repr, DecidableEq

/-- The environment of one run.  The functions are indexed by the number of
loop iterations completed before the call, which is also the number of grab
results retrieved before it. -/
structure Sdk where
  /-- The `fopen` of line 67 returned a stream, not `NULL`. -/
  timesOpened : Bool
  /-- The `fopen` of line 74 returned a stream, not `NULL`. -/
  movieOpened : Bool
  /-- One of the calls before the loop throws: `CreateFirstDevice`,
  `GetDeviceInfo`, `StartGrabbing`. -/
  startupThrows : Bool
  /-- Answer of `camera.IsGrabbing()` at the head of the loop. -/
  isGrabbing : Nat → Bool
  /-- Reading `clock_gettime(CLOCK_TYPE, &t_temp)`, line 108. -/
  clockBefore : Nat → Timespec
  /-- Lines 111 and 129 to 133. -/
  retrieve : Nat → Retrieve
  /-- Reading `clock_gettime(CLOCK_TYPE, &t_diff)`, line 117. -/
  clockAfter : Nat → Timespec
  /-- Ticks of `high_resolution_clock` at line 72. -/
  hrStart : Int
  /-- Ticks of `high_resolution_clock` at line 114. -/
  hrNow : Nat → Int

/-! ## Program state -/

/-- The arguments of the `sprintf` of lines 122 to 125, one line of
`times_temp.txt`.  The fifth is printed with `%g` after a conversion to
seconds as a `double`; the embedding keeps the tick difference it is computed
from. -/
structure TimingLine where
  frames : Int
  t_temp_nsec : Int
  t_diff_nsec : Int
  diff_nsec : Int
  time_span : Int
  deriving Repr, DecidableEq

/-- One call `fwrite(ptr, size, count, pFile_ims)`: the bytes at `ptr` and the
two numbers. -/
structure FwriteCall where
  buffer : List Nat
  size : Nat
  count : Nat
  deriving Repr, DecidableEq

/-- The variables of `main` the loop reads and writes, and the two files.
`iter` counts the iterations started; it is the index into the environment. -/
structure State where
  frames : Int
  done : Int
  iter : Nat
  times_temp : List TimingLine
  movie : List FwriteCall
  deriving Repr, DecidableEq

/-- Lines 62, 67 and 74: `frames=0, done=0`, both files created empty. -/
def State.init : State :=
  { frames := 0, done := 0, iter := 0, times_temp := [], movie := [] }

/-! ## The loop -/

/-- Lines 122 to 125. -/
def timingLine (sdk : Sdk) (s : State) : TimingLine :=
  let t_temp := sdk.clockBefore s.iter
  let t_diff := sdk.clockAfter s.iter
  { frames := s.frames
    t_temp_nsec := t_temp.tv_nsec
    t_diff_nsec := t_diff.tv_nsec
    diff_nsec := wrapInt64 (t_diff.tv_nsec - t_temp.tv_nsec)
    time_span := sdk.hrNow s.iter - sdk.hrStart }

/-- Line 139: `fwrite(pImageBuffer, 1, width*height, pFile_ims)` with
`const int width`, `const int height` read from the `uint32_t` accessors. -/
def fwriteCall (r : GrabResult) : FwriteCall :=
  let width := wrapInt32 (r.width : Int)
  let height := wrapInt32 (r.height : Int)
  { buffer := r.buffer, size := 1, count := toSizeT (wrapInt32 (width * height)) }

/-- Lines 129 to 151, the branch of a successful grab. -/
def onSuccess (r : GrabResult) (s : State) : State :=
  let s1 := { s with movie := s.movie ++ [fwriteCall r], frames := wrapInt32 (s.frames + 1) }
  if s1.frames > num_frames then { s1 with done := 1 } else s1

/-- One pass through the loop body, lines 106 to 155.  `Except.error` is a
`GenericException` leaving the `try` block, with the state at the throw. -/
def body (sdk : Sdk) (s : State) : Except State State :=
  match sdk.retrieve s.iter with
  | Retrieve.throws => Except.error { s with iter := s.iter + 1 }
  | Retrieve.accessorThrows =>
    Except.error { s with iter := s.iter + 1, times_temp := s.times_temp ++ [timingLine sdk s] }
  | Retrieve.result r =>
    let s1 := { s with iter := s.iter + 1, times_temp := s.times_temp ++ [timingLine sdk s] }
    if r.grabSucceeded then Except.ok (onSuccess r s1) else Except.ok s1

/-- How the execution of the loop stopped. -/
inductive Exit where
  /-- The condition of the `while` was false. -/
  | loopEnded : Exit
  /-- A `GenericException` was thrown in the body. -/
  | exception : Exit
  /-- The loop was still running when the fuel was used up. -/
  | fuelExhausted : Exit
  deriving Repr, DecidableEq

/-- Line 104: `camera.IsGrabbing() & !done`, both operands evaluated. -/
def loopCond (sdk : Sdk) (s : State) : Bool :=
  sdk.isGrabbing s.iter && (s.done == 0)

/-- The `while` loop of lines 104 to 156, for at most `fuel` evaluations of its
condition.  The state returned with `Exit.fuelExhausted` is the state the
running loop has reached. -/
def loop (sdk : Sdk) : Nat → State → Exit × State
  | 0, s => (Exit.fuelExhausted, s)
  | fuel + 1, s =>
    if loopCond sdk s then
      match body sdk s with
      | Except.ok s' => loop sdk fuel s'
      | Except.error s' => (Exit.exception, s')
    else (Exit.loopEnded, s)

/-- What is left when `main` returns. -/
structure Run where
  exitCode : Int
  final : State
  deriving Repr, DecidableEq

/-- How a run of `main` ends. -/
inductive Outcome where
  /-- Line 176 is reached and `main` returns. -/
  | returned : Run → Outcome
  /-- A `NULL` stream was passed to `fprintf`, `fwrite` or `fclose`: the
  behaviour is undefined, and the process is killed before `main` returns. -/
  | killed : Outcome
  deriving Repr, DecidableEq

/-- The loop has used a stream that is `NULL`: the `fprintf` of line 126 has
been reached with `pFile_times_temp` null, or the `fwrite` of line 139 with
`pFile_ims` null.  The state `s` is the one the loop reaches with two streams. -/
def usesNullStream (sdk : Sdk) (s : State) : Bool :=
  (!sdk.timesOpened && !s.times_temp.isEmpty) || (!sdk.movieOpened && !s.movie.isEmpty)

/-- Lines 166, 167 and 176: both streams are closed and `main` returns. -/
def closeAndReturn (sdk : Sdk) (exitCode : Int) (s : State) : Outcome :=
  if sdk.timesOpened && sdk.movieOpened then
    Outcome.returned { exitCode := exitCode, final := s }
  else Outcome.killed

/-- The function `main`, lines 56 to 177; `none` when the loop is still running
after `fuel` evaluations of its condition.  Lines 67 to 76 open the files and
only print a message when a stream is returned. -/
def main (sdk : Sdk) (fuel : Nat) : Option Outcome :=
  let exitCode : Int := 0
  if sdk.startupThrows then
    some (closeAndReturn sdk 1 State.init)
  else
    match loop sdk fuel State.init with
    | (Exit.loopEnded, s) => some (closeAndReturn sdk exitCode s)
    | (Exit.exception, s) => some (closeAndReturn sdk 1 s)
    | (Exit.fuelExhausted, s) => if usesNullStream sdk s then some Outcome.killed else none

/-! ## The run as a function of the environment -/

/-- The iteration retrieves a grab result that reports `GrabSucceeded() = true`. -/
def Retrieve.succeeded : Retrieve → Bool
  | Retrieve.result r => r.grabSucceeded
  | _ => false

/-- The iteration retrieves a grab result that reports `GrabSucceeded() = false`. -/
def Retrieve.failed : Retrieve → Bool
  | Retrieve.result r => !r.grabSucceeded
  | _ => false

/-- A `GenericException` is thrown in the iteration. -/
def Retrieve.isThrow : Retrieve → Bool
  | Retrieve.result _ => false
  | _ => true

/-- Number of iterations among the first `n` whose grab succeeded. -/
def succeededAmong (sdk : Sdk) (n : Nat) : Nat :=
  ((List.range n).filter (fun i => (sdk.retrieve i).succeeded)).length

/-- Number of iterations among the first `n` whose grab result reported a failure. -/
def failedAmong (sdk : Sdk) (n : Nat) : Nat :=
  ((List.range n).filter (fun i => (sdk.retrieve i).failed)).length

/-- The `fwrite` call of an iteration, when it makes one. -/
def writeOf : Retrieve → Option FwriteCall
  | Retrieve.result r => if r.grabSucceeded then some (fwriteCall r) else none
  | _ => none

/-- The `fwrite` calls of the first `n` iterations, in order. -/
def writesAmong (sdk : Sdk) (n : Nat) : List FwriteCall :=
  (List.range n).filterMap (fun i => writeOf (sdk.retrieve i))

/-- The timing line of iteration `k` (counted from 0), when the iterations
before it all retrieved a result. -/
def lineAt (sdk : Sdk) (k : Nat) : TimingLine :=
  timingLine sdk { State.init with frames := (succeededAmong sdk k : Int), iter := k }

/-- Some call of the `try` block made in a run of `n` loop iterations throws. -/
def thrownWithin (sdk : Sdk) (n : Nat) : Prop :=
  sdk.startupThrows = true ∨ ∃ i, i < n ∧ (sdk.retrieve i).isThrow = true

instance (sdk : Sdk) (n : Nat) : Decidable (thrownWithin sdk n) := by
  unfold thrownWithin
  infer_instance

/-- The camera of `StartGrabbing(n)`: grabbing until `n` results have been
retrieved, stopped from then on. -/
def StopsAfter (sdk : Sdk) (n : Nat) : Prop :=
  ∀ i, sdk.isGrabbing i = decide (i < n)

/-- Nanoseconds from the reading `a` to the reading `b`. -/
def elapsedNs (a b : Timespec) : Int :=
  (b.tv_sec - a.tv_sec) * 1000000000 + (b.tv_nsec - a.tv_nsec)

/-- A `tv_nsec` as `clock_gettime` fills it. -/
def Timespec.valid (t : Timespec) : Prop :=
  0 ≤ t.tv_nsec ∧ t.tv_nsec ≤ 999999999

instance (t : Timespec) : Decidable t.valid := by
  unfold Timespec.valid
  infer_instance

/-- The bytes an `fwrite` call puts in the file when the write is not short:
the first `size * count` bytes at the pointer. -/
def FwriteCall.bytes (c : FwriteCall) : List Nat :=
  c.buffer.take (c.size * c.count)

/-- Content of a file written by these calls, none of them short. -/
def fileBytes (calls : List FwriteCall) : List Nat :=
  (calls.map FwriteCall.bytes).flatten

/-- What the loop keeps true of its state, whether it runs on or has thrown. -/
structure Tracks (sdk : Sdk) (s : State) : Prop where
  frames_eq : s.frames = (succeededAmong sdk s.iter : Int)
  movie_eq : s.movie = writesAmong sdk s.iter
  done_zero : s.done = 0 → s.frames ≤ num_frames
  done_set : s.done ≠ 0 → s.done = 1 ∧ s.frames = num_frames + 1

/-- What holds at the head of the loop. -/
structure Running (sdk : Sdk) (s : State) extends Tracks sdk s : Prop where
  results : ∀ i, i < s.iter → (sdk.retrieve i).isThrow = false
  grabbing : ∀ i, i < s.iter → sdk.isGrabbing i = true
  lines : s.times_temp = (List.range s.iter).map (lineAt sdk)

/-- What holds when the body has thrown. -/
structure Thrown (sdk : Sdk) (s : State) extends Tracks sdk s : Prop where
  pos : 0 < s.iter
  thrown : (sdk.retrieve (s.iter - 1)).isThrow = true
  results : ∀ i, i < s.iter - 1 → (sdk.retrieve i).isThrow = false
  grabbing : ∀ i, i < s.iter → sdk.isGrabbing i = true
  lines : s.times_temp = (List.range (s.iter - 1)).map (lineAt sdk) ++
    (if sdk.retrieve (s.iter - 1) = Retrieve.accessorThrows then [lineAt sdk (s.iter - 1)] else [])

/-! ## Concrete environments -/

/-- A grab result of a 2 x 3 image with 16-bit pixels: 12 bytes in the buffer. -/
def sampleResult (ok : Bool) : GrabResult :=
  { grabSucceeded := ok, width := 2, height := 3, buffer := [1, 2, 3, 4, 5, 6, 7, 8, 9, 10, 11, 12] }

/-- The camera stops after `c_countOfImagesToGrab` results, nothing throws and
every grab succeeds.  Each `RetrieveResult` starts 10 ns before a full second
and ends 5 ns after it. -/
def steadyCamera : Sdk where
  timesOpened := true
  movieOpened := true
  startupThrows := false
  isGrabbing := fun i => decide (i < c_countOfImagesToGrab)
  clockBefore := fun i => { tv_sec := i, tv_nsec := 999999990 }
  retrieve := fun _ => Retrieve.result (sampleResult true)
  clockAfter := fun i => { tv_sec := i + 1, tv_nsec := 5 }
  hrStart := 0
  hrNow := fun i => 1000000000 * (i + 1)

/-- As `steadyCamera`, and the first grab result reports a failure. -/
def firstGrabFails : Sdk :=
  { steadyCamera with retrieve := fun i => Retrieve.result (sampleResult (decide (i ≠ 0))) }

/-- As `steadyCamera`, and the `fopen` of the movie file returns `NULL`. -/
def movieNotOpened : Sdk :=
  { steadyCamera with movieOpened := false }

/-- As `firstGrabFails`, and the `fopen` of the timing file returns `NULL`. -/
def timesNotOpened : Sdk :=
  { firstGrabFails with timesOpened := false }

/-! ## Machine integers: lemmas -/

theorem wrapInt32_of_range (x : Int) (h1 : -2147483648 ≤ x) (h2 : x < 2147483648) :
    wrapInt32 x = x := by
  unfold wrapInt32
  norm_num
  omega

theorem wrapInt64_of_range (x : Int) (h1 : -9223372036854775808 ≤ x)
    (h2 : x < 9223372036854775808) : wrapInt64 x = x := by
  unfold wrapInt64
  norm_num
  omega

theorem wrapInt32_emod (x : Int) : wrapInt32 x % 4294967296 = x % 4294967296 := by
  unfold wrapInt32
  norm_num
  omega

theorem num_frames_eq : num_frames = 93020 := by
  unfold num_frames c_countOfImagesToGrab
  norm_num

/-! ## Counting lemmas -/

theorem succeededAmong_succ (sdk : Sdk) (n : Nat) :
    succeededAmong sdk (n + 1) =
      succeededAmong sdk n + (if (sdk.retrieve n).succeeded then 1 else 0) := by
  unfold succeededAmong
  rw [List.range_succ, List.filter_append, List.length_append]
  by_cases h : (sdk.retrieve n).succeeded = true <;> simp [h]

theorem failedAmong_succ (sdk : Sdk) (n : Nat) :
    failedAmong sdk (n + 1) =
      failedAmong sdk n + (if (sdk.retrieve n).failed then 1 else 0) := by
  unfold failedAmong
  rw [List.range_succ, List.filter_append, List.length_append]
  by_cases h : (sdk.retrieve n).failed = true <;> simp [h]

theorem writesAmong_succ (sdk : Sdk) (n : Nat) :
    writesAmong sdk (n + 1) = writesAmong sdk n ++ (writeOf (sdk.retrieve n)).toList := by
  unfold writesAmong
  rw [List.range_succ, List.filterMap_append]
  cases h : writeOf (sdk.retrieve n) <;> simp [h]

theorem succeededAmong_le (sdk : Sdk) (n : Nat) : succeededAmong sdk n ≤ n := by
  induction n with
  | zero => simp [succeededAmong]
  | succ n ih =>
    rw [succeededAmong_succ]
    split <;> omega

theorem writesAmong_length (sdk : Sdk) (n : Nat) :
    (writesAmong sdk n).length = succeededAmong sdk n := by
  induction n with
  | zero => simp [writesAmong, succeededAmong]
  | succ n ih =>
    rw [writesAmong_succ, succeededAmong_succ, List.length_append, ih]
    cases h : sdk.retrieve n with
    | throws => simp [writeOf, Retrieve.succeeded]
    | accessorThrows => simp [writeOf, Retrieve.succeeded]
    | result r => cases hr : r.grabSucceeded <;> simp [writeOf, Retrieve.succeeded, hr]

/-! ## The loop invariant -/

theorem timingLine_eq_lineAt (sdk : Sdk) (s : State)
    (h : s.frames = (succeededAmong sdk s.iter : Int)) :
    timingLine sdk s = lineAt sdk s.iter := by
  simp [timingLine, lineAt, h]

theorem loopCond_true {sdk : Sdk} {s : State} (h : loopCond sdk s = true) :
    sdk.isGrabbing s.iter = true ∧ s.done = 0 := by
  simpa [loopCond] using h

theorem running_init (sdk : Sdk) : Running sdk State.init := by
  refine ⟨⟨?_, ?_, ?_, ?_⟩, ?_, ?_, ?_⟩ <;>
    simp [State.init, succeededAmong, writesAmong, num_frames_eq]

theorem body_error_thrown {sdk : Sdk} {s s' : State} (hs : Running sdk s)
    (hc : loopCond sdk s = true) (hb : body sdk s = Except.error s') : Thrown sdk s' := by
  obtain ⟨hg, _⟩ := loopCond_true hc
  have hgrab : ∀ i, i < s.iter + 1 → sdk.isGrabbing i = true := by
    intro i hi
    rcases Nat.lt_succ_iff_lt_or_eq.mp hi with h | h
    · exact hs.grabbing i h
    · rw [h]; exact hg
  unfold body at hb
  cases hr : sdk.retrieve s.iter with
  | throws =>
    rw [hr] at hb
    injection hb with hb
    subst hb
    refine ⟨⟨?_, ?_, hs.done_zero, hs.done_set⟩, ?_, ?_, ?_, hgrab, ?_⟩
    · simp [succeededAmong_succ, hr, Retrieve.succeeded, hs.frames_eq]
    · simp [writesAmong_succ, hr, writeOf, hs.movie_eq]
    · simp
    · simp [hr, Retrieve.isThrow]
    · simpa using hs.results
    · simp [hr, hs.lines]
  | accessorThrows =>
    rw [hr] at hb
    injection hb with hb
    subst hb
    refine ⟨⟨?_, ?_, hs.done_zero, hs.done_set⟩, ?_, ?_, ?_, hgrab, ?_⟩
    · simp [succeededAmong_succ, hr, Retrieve.succeeded, hs.frames_eq]
    · simp [writesAmong_succ, hr, writeOf, hs.movie_eq]
    · simp
    · simp [hr, Retrieve.isThrow]
    · simpa using hs.results
    · simp [hr, hs.lines, timingLine_eq_lineAt sdk s hs.frames_eq]
  | result r =>
    rw [hr] at hb
    simp only at hb
    split at hb <;> cases hb

theorem body_ok_running {sdk : Sdk} {s s' : State} (hs : Running sdk s)
    (hc : loopCond sdk s = true) (hb : body sdk s = Except.ok s') :
    Running sdk s' ∧ s'.iter = s.iter + 1 := by
  obtain ⟨hg, hd⟩ := loopCond_true hc
  have hle := hs.done_zero hd
  have hfr := hs.frames_eq
  rw [num_frames_eq] at hle
  have hgrab : ∀ i, i < s.iter + 1 → sdk.isGrabbing i = true := by
    intro i hi
    rcases Nat.lt_succ_iff_lt_or_eq.mp hi with h | h
    · exact hs.grabbing i h
    · rw [h]; exact hg
  unfold body at hb
  cases hr : sdk.retrieve s.iter with
  | throws => rw [hr] at hb; cases hb
  | accessorThrows => rw [hr] at hb; cases hb
  | result r =>
    have hres : ∀ i, i < s.iter + 1 → (sdk.retrieve i).isThrow = false := by
      intro i hi
      rcases Nat.lt_succ_iff_lt_or_eq.mp hi with h | h
      · exact hs.results i h
      · rw [h, hr]; rfl
    have hlines : s.times_temp ++ [timingLine sdk s] =
        (List.range (s.iter + 1)).map (lineAt sdk) := by
      rw [List.range_succ, List.map_append, hs.lines, timingLine_eq_lineAt sdk s hs.frames_eq]
      rfl
    rw [hr] at hb
    simp only at hb
    cases hok : r.grabSucceeded with
    | false =>
      rw [hok] at hb
      simp only [Bool.false_eq_true, if_false] at hb
      injection hb with hb
      subst hb
      refine ⟨⟨⟨?_, ?_, hs.done_zero, hs.done_set⟩, hres, hgrab, hlines⟩, rfl⟩
      · simp [succeededAmong_succ, hr, Retrieve.succeeded, hok, hs.frames_eq]
      · simp [writesAmong_succ, hr, writeOf, hok, hs.movie_eq]
    | true =>
      rw [hok] at hb
      simp only [if_true] at hb
      injection hb with hb
      have hw : wrapInt32 (s.frames + 1) = s.frames + 1 :=
        wrapInt32_of_range _ (by omega) (by omega)
      have hcount : ((succeededAmong sdk (s.iter + 1) : Nat) : Int) = s.frames + 1 := by
        simp [succeededAmong_succ, hr, Retrieve.succeeded, hok, hs.frames_eq]
      have hmovie : s.movie ++ [fwriteCall r] = writesAmong sdk (s.iter + 1) := by
        simp [writesAmong_succ, hr, writeOf, hok, hs.movie_eq]
      unfold onSuccess at hb
      simp only [hw, num_frames_eq] at hb
      by_cases hgt : s.frames + 1 > 93020
      · rw [if_pos hgt] at hb
        subst hb
        refine ⟨⟨⟨?_, hmovie, ?_, ?_⟩, hres, hgrab, hlines⟩, rfl⟩
        · exact hcount.symm
        · intro h
          have h1 : (1 : Int) = 0 := h
          omega
        · intro _
          refine ⟨rfl, ?_⟩
          show s.frames + 1 = num_frames + 1
          rw [num_frames_eq]; omega
      · rw [if_neg hgt] at hb
        subst hb
        refine ⟨⟨⟨?_, hmovie, ?_, ?_⟩, hres, hgrab, hlines⟩, rfl⟩
        · exact hcount.symm
        · intro _
          show s.frames + 1 ≤ num_frames
          rw [num_frames_eq]; omega
        · intro h; exact absurd hd h

theorem loop_spec (sdk : Sdk) : ∀ (fuel : Nat) (s : State), Running sdk s →
    ((loop sdk fuel s).1 = Exit.exception → Thrown sdk (loop sdk fuel s).2) ∧
    ((loop sdk fuel s).1 ≠ Exit.exception → Running sdk (loop sdk fuel s).2) ∧
    ((loop sdk fuel s).1 = Exit.loopEnded → loopCond sdk (loop sdk fuel s).2 = false) ∧
    ((loop sdk fuel s).1 = Exit.fuelExhausted → (loop sdk fuel s).2.iter = s.iter + fuel) := by
  intro fuel
  induction fuel with
  | zero =>
    intro s hs
    simp [loop, hs]
  | succ fuel ih =>
    intro s hs
    by_cases hc : loopCond sdk s = true
    · cases hb : body sdk s with
      | ok s' =>
        obtain ⟨hs', hi⟩ := body_ok_running hs hc hb
        have hl : loop sdk (fuel + 1) s = loop sdk fuel s' := by
          simp [loop, hc, hb]
        rw [hl]
        obtain ⟨h1, h2, h3, h4⟩ := ih s' hs'
        refine ⟨h1, h2, h3, ?_⟩
        intro h
        rw [h4 h, hi]
        omega
      | error s' =>
        have hl : loop sdk (fuel + 1) s = (Exit.exception, s') := by
          simp [loop, hc, hb]
        rw [hl]
        refine ⟨fun _ => body_error_thrown hs hc hb, ?_, ?_, ?_⟩ <;> simp
    · have hl : loop sdk (fuel + 1) s = (Exit.loopEnded, s) := by
        simp [loop, hc]
      rw [hl]
      refine ⟨?_, fun _ => hs, fun _ => ?_, ?_⟩
      · simp
      · simpa using hc
      · simp

/-- Every state the loop reaches from the start of `main` keeps the counts. -/
theorem loop_counts (sdk : Sdk) (fuel : Nat) : Tracks sdk (loop sdk fuel State.init).2 := by
  obtain ⟨h1, h2, _, _⟩ := loop_spec sdk fuel State.init (running_init sdk)
  by_cases h : (loop sdk fuel State.init).1 = Exit.exception
  · exact (h1 h).toTracks
  · exact (h2 h).toTracks

/-- The camera answered "grabbing" at the head of every iteration made. -/
theorem loop_grabbing (sdk : Sdk) (fuel : Nat) (i : Nat)
    (hi : i < (loop sdk fuel State.init).2.iter) : sdk.isGrabbing i = true := by
  obtain ⟨h1, h2, _, _⟩ := loop_spec sdk fuel State.init (running_init sdk)
  by_cases h : (loop sdk fuel State.init).1 = Exit.exception
  · exact (h1 h).grabbing i hi
  · exact (h2 h).grabbing i hi

/-- Once the camera has stopped grabbing after `n` results, no run makes more
than `n` iterations. -/
theorem loop_iter_le (sdk : Sdk) (fuel n : Nat) (hn : sdk.isGrabbing n = false) :
    (loop sdk fuel State.init).2.iter ≤ n := by
  by_contra hlt
  have := loop_grabbing sdk fuel n (by omega)
  rw [hn] at this
  cases this

/-- With more fuel than that, the loop has ended. -/
theorem loop_ends (sdk : Sdk) (fuel n : Nat) (hn : sdk.isGrabbing n = false) (hf : n < fuel) :
    (loop sdk fuel State.init).1 ≠ Exit.fuelExhausted := by
  intro h
  obtain ⟨_, _, _, h4⟩ := loop_spec sdk fuel State.init (running_init sdk)
  have h5 : _ = State.init.iter + fuel := h4 h
  have h6 := loop_iter_le sdk fuel n hn
  have h7 : State.init.iter = 0 := rfl
  omega

theorem getElem?_map_range {α : Type} (f : Nat → α) (n k : Nat) (h : k < n) :
    ((List.range n).map f)[k]? = some (f k) := by
  rw [List.getElem?_map, List.getElem?_range h]
  rfl

/-- The lines of the timing file, in order: line `k` is `lineAt sdk k`. -/
theorem loop_lines (sdk : Sdk) (fuel : Nat) (k : Nat)
    (hk : k < (loop sdk fuel State.init).2.times_temp.length) :
    (loop sdk fuel State.init).2.times_temp[k]? = some (lineAt sdk k) ∧
      k < (loop sdk fuel State.init).2.iter ∧
      (∀ i, i ≤ k → (sdk.retrieve i).isThrow = true → sdk.retrieve i = Retrieve.accessorThrows ∧
        i = k ∧ (loop sdk fuel State.init).1 = Exit.exception) := by
  obtain ⟨h1, h2, _, _⟩ := loop_spec sdk fuel State.init (running_init sdk)
  by_cases h : (loop sdk fuel State.init).1 = Exit.exception
  · have ht := h1 h
    have hpos := ht.pos
    rw [ht.lines] at hk ⊢
    by_cases ha : sdk.retrieve ((loop sdk fuel State.init).2.iter - 1) = Retrieve.accessorThrows
    · rw [if_pos ha] at hk ⊢
      simp only [List.length_append, List.length_map, List.length_range,
        List.length_singleton] at hk
      refine ⟨?_, by omega, ?_⟩
      · by_cases hlast : k = (loop sdk fuel State.init).2.iter - 1
        · rw [List.getElem?_append_right (by simp [hlast])]
          simp [hlast]
        · rw [List.getElem?_append_left (by simp; omega)]
          exact getElem?_map_range _ _ _ (by omega)
      · intro i hik hthrow
        by_cases hlast : i = (loop sdk fuel State.init).2.iter - 1
        · refine ⟨hlast ▸ ha, by omega, h⟩
        · have := ht.results i (by omega)
          rw [this] at hthrow
          cases hthrow
    · rw [if_neg ha] at hk ⊢
      simp only [List.append_nil, List.length_map, List.length_range] at hk ⊢
      refine ⟨getElem?_map_range _ _ _ hk, by omega, ?_⟩
      intro i hik hthrow
      have := ht.results i (by omega)
      rw [this] at hthrow
      cases hthrow
  · have hr := h2 h
    rw [hr.lines] at hk ⊢
    simp only [List.length_map, List.length_range] at hk
    refine ⟨getElem?_map_range _ _ _ hk, hk, ?_⟩
    intro i hik hthrow
    have := hr.results i (by omega)
    rw [this] at hthrow
    cases hthrow

/-- An exception ended the loop exactly when one of the iterations made threw. -/
theorem loop_exception_iff (sdk : Sdk) (fuel : Nat) :
    (loop sdk fuel State.init).1 = Exit.exception ↔
      ∃ i, i < (loop sdk fuel State.init).2.iter ∧ (sdk.retrieve i).isThrow = true := by
  obtain ⟨h1, h2, _, _⟩ := loop_spec sdk fuel State.init (running_init sdk)
  constructor
  · intro h
    have ht := h1 h
    exact ⟨_, by have := ht.pos; omega, ht.thrown⟩
  · rintro ⟨i, hi, hthrow⟩
    by_contra h
    have := (h2 h).results i hi
    rw [this] at hthrow
    cases hthrow

theorem succeededAmong_all (sdk : Sdk) (n : Nat)
    (h : ∀ i, i < n → (sdk.retrieve i).succeeded = true) : succeededAmong sdk n = n := by
  induction n with
  | zero => simp [succeededAmong]
  | succ n ih =>
    rw [succeededAmong_succ, ih (fun i hi => h i (by omega)), h n (by omega)]
    simp

theorem isThrow_of_succeeded {x : Retrieve} (h : x.succeeded = true) : x.isThrow = false := by
  cases x <;> simp_all [Retrieve.succeeded, Retrieve.isThrow]

/-- With the camera of `StartGrabbing(n)`, `n` at most 93020, a loop that ends by
its condition has made exactly `n` iterations: the `done` flag is not what
ended it. -/
theorem loop_ended_iter (sdk : Sdk) (fuel n : Nat) (hstop : StopsAfter sdk n)
    (hn : n ≤ c_countOfImagesToGrab) (hend : (loop sdk fuel State.init).1 = Exit.loopEnded) :
    (loop sdk fuel State.init).2.iter = n := by
  have hoff : sdk.isGrabbing n = false := by simp [hstop n]
  have hle := loop_iter_le sdk fuel n hoff
  obtain ⟨_, h2, h3, _⟩ := loop_spec sdk fuel State.init (running_init sdk)
  have hrun := h2 (by rw [hend]; decide)
  by_contra hne
  have hlt : (loop sdk fuel State.init).2.iter < n := by omega
  have hc := h3 hend
  have hg : sdk.isGrabbing (loop sdk fuel State.init).2.iter = true := by simp [hstop _, hlt]
  have hd : (loop sdk fuel State.init).2.done ≠ 0 := by
    intro hd
    simp [loopCond, hg, hd] at hc
  have hfr := (hrun.done_set hd).2
  have hcount := succeededAmong_le sdk (loop sdk fuel State.init).2.iter
  rw [hrun.frames_eq, num_frames_eq] at hfr
  unfold c_countOfImagesToGrab at hn
  omega

/-- With that camera and no exception in the first `n` iterations, the loop
ends by its condition after exactly `n` iterations. -/
theorem loop_full (sdk : Sdk) (fuel n : Nat) (hstop : StopsAfter sdk n)
    (hn : n ≤ c_countOfImagesToGrab)
    (hres : ∀ i, i < n → (sdk.retrieve i).isThrow = false) (hf : n < fuel) :
    (loop sdk fuel State.init).1 = Exit.loopEnded ∧ (loop sdk fuel State.init).2.iter = n ∧
      Running sdk (loop sdk fuel State.init).2 := by
  have hoff : sdk.isGrabbing n = false := by simp [hstop n]
  have hle := loop_iter_le sdk fuel n hoff
  have hfuel := loop_ends sdk fuel n hoff hf
  have hexc : (loop sdk fuel State.init).1 ≠ Exit.exception := by
    intro h
    obtain ⟨i, hi, hthrow⟩ := (loop_exception_iff sdk fuel).mp h
    rw [hres i (by omega)] at hthrow
    cases hthrow
  have hend : (loop sdk fuel State.init).1 = Exit.loopEnded := by
    cases h : (loop sdk fuel State.init).1 with
    | loopEnded => rfl
    | exception => exact absurd h hexc
    | fuelExhausted => exact absurd h hfuel
  exact ⟨hend, loop_ended_iter sdk fuel n hstop hn hend,
    (loop_spec sdk fuel State.init (running_init sdk)).2.1 hexc⟩

/-- When `main` returns, both files had been opened. -/
theorem main_opened (sdk : Sdk) (fuel : Nat) (r : Run)
    (h : main sdk fuel = some (Outcome.returned r)) :
    sdk.timesOpened = true ∧ sdk.movieOpened = true := by
  by_contra ho
  have hno : (sdk.timesOpened && sdk.movieOpened) = false := by
    cases h1 : sdk.timesOpened <;> cases h2 : sdk.movieOpened <;> simp_all
  unfold main at h
  by_cases hs : sdk.startupThrows = true
  · simp [hs, closeAndReturn, hno] at h
  · simp only [hs] at h
    rcases hl : loop sdk fuel State.init with ⟨e, t⟩
    rw [hl] at h
    cases e with
    | loopEnded => simp [closeAndReturn, hno] at h
    | exception => simp [closeAndReturn, hno] at h
    | fuelExhausted =>
      simp only [Bool.false_eq_true, if_false] at h
      split at h <;> cases h

theorem closeAndReturn_opened (sdk : Sdk) (code : Int) (s : State)
    (ho : sdk.timesOpened = true ∧ sdk.movieOpened = true) :
    closeAndReturn sdk code s = Outcome.returned { exitCode := code, final := s } := by
  simp [closeAndReturn, ho.1, ho.2]

/-- The final state of a run of `main` is a state of the loop. -/
theorem main_final (sdk : Sdk) (fuel : Nat) (r : Run)
    (h : main sdk fuel = some (Outcome.returned r)) :
    (sdk.startupThrows = true ∧ r.exitCode = 1 ∧ r.final = State.init) ∨
    (sdk.startupThrows = false ∧ (loop sdk fuel State.init).2 = r.final ∧
      (((loop sdk fuel State.init).1 = Exit.loopEnded ∧ r.exitCode = 0) ∨
       ((loop sdk fuel State.init).1 = Exit.exception ∧ r.exitCode = 1))) := by
  have ho := main_opened sdk fuel r h
  unfold main at h
  by_cases hs : sdk.startupThrows = true
  · left
    simp only [hs, if_true, closeAndReturn_opened sdk _ _ ho, Option.some.injEq,
      Outcome.returned.injEq] at h
    subst h
    exact ⟨hs, rfl, rfl⟩
  · right
    simp only [hs] at h
    refine ⟨by simpa using hs, ?_⟩
    rcases hl : loop sdk fuel State.init with ⟨e, t⟩
    rw [hl] at h
    cases e with
    | loopEnded =>
      simp only [Bool.false_eq_true, if_false, closeAndReturn_opened sdk _ _ ho,
        Option.some.injEq, Outcome.returned.injEq] at h
      subst h
      exact ⟨rfl, Or.inl ⟨rfl, rfl⟩⟩
    | exception =>
      simp only [Bool.false_eq_true, if_false, closeAndReturn_opened sdk _ _ ho,
        Option.some.injEq, Outcome.returned.injEq] at h
      subst h
      exact ⟨rfl, Or.inr ⟨rfl, rfl⟩⟩
    | fuelExhausted =>
      simp only [Bool.false_eq_true, if_false] at h
      split at h <;> cases h

/-- With both files opened, the function `main` returns once the loop has ended. -/
theorem main_returns (sdk : Sdk) (fuel : Nat)
    (ho : sdk.timesOpened = true ∧ sdk.movieOpened = true)
    (h : sdk.startupThrows = false → (loop sdk fuel State.init).1 ≠ Exit.fuelExhausted) :
    ∃ r, main sdk fuel = some (Outcome.returned r) := by
  unfold main
  by_cases hs : sdk.startupThrows = true
  · simp [hs, closeAndReturn_opened sdk _ _ ho]
  · have hs' : sdk.startupThrows = false := by simpa using hs
    have hl := h hs'
    rcases hloop : loop sdk fuel State.init with ⟨e, t⟩
    rw [hloop] at hl
    cases e with
    | loopEnded => simp [hs', closeAndReturn_opened sdk _ _ ho]
    | exception => simp [hs', closeAndReturn_opened sdk _ _ ho]
    | fuelExhausted => exact absurd rfl hl

theorem main_of_loopEnded (sdk : Sdk) (fuel : Nat)
    (ho : sdk.timesOpened = true ∧ sdk.movieOpened = true) (hs : sdk.startupThrows = false)
    (hend : (loop sdk fuel State.init).1 = Exit.loopEnded) :
    main sdk fuel =
      some (Outcome.returned { exitCode := 0, final := (loop sdk fuel State.init).2 }) := by
  unfold main
  rcases hl : loop sdk fuel State.init with ⟨e, t⟩
  rw [hl] at hend
  simp only at hend
  subst hend
  simp [hs, closeAndReturn_opened sdk _ _ ho]

theorem count_eq : c_countOfImagesToGrab = 93020 := by
  unfold c_countOfImagesToGrab
  norm_num

theorem succeeded_add_failed (sdk : Sdk) (n : Nat)
    (h : ∀ i, i < n → (sdk.retrieve i).isThrow = false) :
    succeededAmong sdk n + failedAmong sdk n = n := by
  induction n with
  | zero => simp [succeededAmong, failedAmong]
  | succ n ih =>
    have ih' := ih (fun i hi => h i (by omega))
    have hn := h n (by omega)
    rw [succeededAmong_succ, failedAmong_succ]
    cases hr : sdk.retrieve n with
    | throws => simp [hr, Retrieve.isThrow] at hn
    | accessorThrows => simp [hr, Retrieve.isThrow] at hn
    | result r =>
      cases hok : r.grabSucceeded <;> simp [Retrieve.succeeded, Retrieve.failed, hok] <;> omega

theorem failedAmong_eq_zero_iff (sdk : Sdk) (n : Nat) :
    failedAmong sdk n = 0 ↔ ∀ i, i < n → (sdk.retrieve i).failed = false := by
  induction n with
  | zero => simp [failedAmong]
  | succ n ih =>
    rw [failedAmong_succ]
    constructor
    · intro h i hi
      by_cases hf : (sdk.retrieve n).failed = true
      · simp [hf] at h
      · rcases Nat.lt_succ_iff_lt_or_eq.mp hi with hlt | heq
        · exact ih.mp (by omega) i hlt
        · rw [heq]; simpa using hf
    · intro h
      have h1 := ih.mpr (fun i hi => h i (by omega))
      have h2 := h n (by omega)
      simp [h1, h2]

theorem succeededAmong_firstGrabFails (n : Nat) : succeededAmong firstGrabFails (n + 1) = n := by
  induction n with
  | zero => rfl
  | succ n ih =>
    rw [succeededAmong_succ, ih]
    rfl

/-- When `main` has returned without an exception, the loop ended by its
condition and its last state is the final state. -/
theorem main_no_throw (sdk : Sdk) (fuel : Nat) (r : Run)
    (h : main sdk fuel = some (Outcome.returned r))
    (hno : ¬ thrownWithin sdk r.final.iter) :
    (loop sdk fuel State.init).2 = r.final ∧ Running sdk r.final ∧ r.exitCode = 0 := by
  rcases main_final sdk fuel r h with ⟨hs, _, _⟩ | ⟨_, hfin, hcase⟩
  · exact absurd (Or.inl hs) hno
  · have hspec := loop_spec sdk fuel State.init (running_init sdk)
    rcases hcase with ⟨hend, hcode⟩ | ⟨hexc, _⟩
    · refine ⟨hfin, ?_, hcode⟩
      rw [← hfin]
      exact hspec.2.1 (by rw [hend]; decide)
    · have := (loop_exception_iff sdk fuel).mp hexc
      rw [hfin] at this
      exact absurd (Or.inr this) hno

/-- The run of `firstGrabFails`. -/
theorem firstGrabFails_run (fuel : Nat) (hf : c_countOfImagesToGrab < fuel) :
    ∃ r, main firstGrabFails fuel = some (Outcome.returned r) ∧ r.exitCode = 0 ∧
      ¬ thrownWithin firstGrabFails r.final.iter ∧ r.final.iter = 93020 ∧
      Running firstGrabFails r.final := by
  obtain ⟨hend, hiter, hrun⟩ := loop_full firstGrabFails fuel c_countOfImagesToGrab
    (fun _ => rfl) (le_refl _) (fun _ _ => rfl) hf
  have hno : ∀ n, ¬ thrownWithin firstGrabFails n := by
    rintro n (h | ⟨i, _, h⟩)
    · cases h
    · cases h
  refine ⟨{ exitCode := 0, final := (loop firstGrabFails fuel State.init).2 },
    main_of_loopEnded firstGrabFails fuel ⟨rfl, rfl⟩ rfl hend, rfl, hno _, ?_, hrun⟩
  rw [hiter, count_eq]

theorem lt_length_of_getElem? {α : Type} (xs : List α) (k : Nat) (x : α)
    (h : xs[k]? = some x) : k < xs.length := by
  by_contra hk
  rw [List.getElem?_eq_none (by omega)] at h
  cases h

/-- A line of the timing file, by its position. -/
theorem loop_line_eq (sdk : Sdk) (fuel k : Nat) (l : TimingLine)
    (hl : (loop sdk fuel State.init).2.times_temp[k]? = some l) : l = lineAt sdk k := by
  have hk := lt_length_of_getElem? _ _ _ hl
  have := (loop_lines sdk fuel k hk).1
  rw [this] at hl
  injection hl with hl
  exact hl.symm

theorem not_succeeded_of_failed {x : Retrieve} (h : x.failed = true) : x.succeeded = false := by
  cases x <;> simp_all [Retrieve.succeeded, Retrieve.failed]

/-! ## The movie file -/

theorem wrapInt32_bounds (x : Int) :
    -2147483648 ≤ wrapInt32 x ∧ wrapInt32 x < 2147483648 := by
  unfold wrapInt32
  norm_num
  omega

theorem eq_of_emod_eq (v q : Int) (hm : v % 4294967296 = q % 4294967296)
    (hlo : -2147483648 ≤ v) (hhi : v < 2147483648) (hq0 : 0 ≤ q) (hq : q < 2147483648) :
    v = q := by
  omega

theorem wrapInt32_mul_cast (w h : Nat) (hwh : w * h < 2 ^ 31) :
    wrapInt32 (wrapInt32 (w : Int) * wrapInt32 (h : Int)) = ((w * h : Nat) : Int) := by
  have hm := wrapInt32_emod (wrapInt32 (w : Int) * wrapInt32 (h : Int))
  have hprod : (wrapInt32 (w : Int) * wrapInt32 (h : Int)) % 4294967296 =
      ((w * h : Nat) : Int) % 4294967296 := by
    rw [Int.mul_emod, wrapInt32_emod (w : Int), wrapInt32_emod (h : Int), ← Int.mul_emod,
      Nat.cast_mul]
  rw [hprod] at hm
  obtain ⟨hlo, hhi⟩ := wrapInt32_bounds (wrapInt32 (w : Int) * wrapInt32 (h : Int))
  have hq : ((w * h : Nat) : Int) < 2147483648 := by
    have h31 : (2 : Nat) ^ 31 = 2147483648 := by norm_num
    rw [h31] at hwh
    exact_mod_cast hwh
  exact eq_of_emod_eq _ _ hm hlo hhi (Int.natCast_nonneg _) hq

theorem toSizeT_cast (n : Nat) (h : n < 2 ^ 31) : toSizeT (n : Int) = n := by
  unfold toSizeT
  have h31 : (2 : Nat) ^ 31 = 2147483648 := by norm_num
  rw [h31] at h
  have h64 : ((2 : Int) ^ 64) = 18446744073709551616 := by norm_num
  rw [h64]
  omega

/-- Line 139 asks for `width * height` elements of size 1 from the start of the
buffer, when the product is below 2^31. -/
theorem fwriteCall_count (r : GrabResult) (h : r.width * r.height < 2 ^ 31) :
    fwriteCall r = { buffer := r.buffer, size := 1, count := r.width * r.height } := by
  unfold fwriteCall
  simp only [wrapInt32_mul_cast r.width r.height h, toSizeT_cast _ h]

theorem mem_writesAmong (sdk : Sdk) (n : Nat) (c : FwriteCall) (h : c ∈ writesAmong sdk n) :
    ∃ i r, i < n ∧ sdk.retrieve i = Retrieve.result r ∧ r.grabSucceeded = true ∧
      c = fwriteCall r := by
  unfold writesAmong at h
  rw [List.mem_filterMap] at h
  obtain ⟨i, hi, hw⟩ := h
  rw [List.mem_range] at hi
  cases hr : sdk.retrieve i with
  | throws => simp [hr, writeOf] at hw
  | accessorThrows => simp [hr, writeOf] at hw
  | result r =>
    cases hok : r.grabSucceeded with
    | false => simp [hr, writeOf, hok] at hw
    | true =>
      simp [hr, writeOf, hok] at hw
      exact ⟨i, r, hi, hr, hok, hw.symm⟩

theorem flatten_length_uniform {α : Type} (L : List (List α)) (m : Nat)
    (h : ∀ x, x ∈ L → x.length = m) : L.flatten.length = L.length * m := by
  induction L with
  | nil => simp
  | cons a L ih =>
    rw [List.flatten_cons, List.length_append, ih (fun x hx => h x (List.mem_cons_of_mem _ hx)),
      h a (List.mem_cons_self _ _), List.length_cons]
    ring

theorem flatten_segment {α : Type} (L : List (List α)) (m : Nat)
    (h : ∀ x, x ∈ L → x.length = m) :
    ∀ (i : Nat) (x : List α), L[i]? = some x → (L.flatten.drop (i * m)).take m = x := by
  induction L with
  | nil => intro i x hx; simp at hx
  | cons a L ih =>
    intro i x hx
    have ha := h a (List.mem_cons_self _ _)
    cases i with
    | zero =>
      simp only [List.getElem?_cons_zero, Option.some.injEq] at hx
      subst hx
      rw [List.flatten_cons, Nat.zero_mul, List.drop_zero]
      exact List.take_left' ha
    | succ i =>
      simp only [List.getElem?_cons_succ] at hx
      have hdrop : (a ++ L.flatten).drop ((i + 1) * m) = L.flatten.drop (i * m) := by
        have hsplit : (i + 1) * m = m + i * m := by ring
        rw [hsplit, ← List.drop_drop, List.drop_left' ha]
      rw [List.flatten_cons, hdrop]
      exact ih (fun y hy => h y (List.mem_cons_of_mem _ hy)) i x hx

theorem onSuccess_movie (r : GrabResult) (s : State) :
    (onSuccess r s).movie = s.movie ++ [fwriteCall r] := by
  by_cases h : wrapInt32 (s.frames + 1) > num_frames <;> simp [onSuccess, h]

theorem writesAmong_getElem? (sdk : Sdk) (n : Nat)
    (h : ∀ i, i < n → (sdk.retrieve i).succeeded = true) :
    ∀ i, i < n → (writesAmong sdk n)[i]? = writeOf (sdk.retrieve i) := by
  induction n with
  | zero => intro i hi; omega
  | succ n ih =>
    intro i hi
    have hprev : ∀ j, j < n → (sdk.retrieve j).succeeded = true := fun j hj => h j (by omega)
    have hlen : (writesAmong sdk n).length = n := by
      rw [writesAmong_length, succeededAmong_all sdk n hprev]
    rw [writesAmong_succ]
    rcases Nat.lt_succ_iff_lt_or_eq.mp hi with hlt | heq
    · rw [List.getElem?_append_left (by omega)]
      exact ih hprev i hlt
    · rw [List.getElem?_append_right (by omega), hlen, heq, Nat.sub_self]
      have hs := h n (by omega)
      cases hr : sdk.retrieve n with
      | throws => simp [hr, Retrieve.succeeded] at hs
      | accessorThrows => simp [hr, Retrieve.succeeded] at hs
      | result g =>
        have hg : g.grabSucceeded = true := by simpa [hr, Retrieve.succeeded] using hs
        simp [writeOf, hg]

/-- A run whose movie file was not opened is killed at the first `fwrite`. -/
theorem movieNotOpened_killed (fuel : Nat) (hf : 0 < fuel) :
    main movieNotOpened fuel = some Outcome.killed := by
  have hm : movieNotOpened.movieOpened = false := rfl
  have hs : movieNotOpened.startupThrows = false := rfl
  obtain ⟨_, h2, _, h4⟩ := loop_spec movieNotOpened fuel State.init (running_init _)
  unfold main
  rcases hl : loop movieNotOpened fuel State.init with ⟨e, t⟩
  rw [hl] at h2 h4
  cases e with
  | loopEnded => simp [hs, closeAndReturn, hm]
  | exception => simp [hs, closeAndReturn, hm]
  | fuelExhausted =>
    have hrun : Running movieNotOpened t := h2 (fun h => by cases h)
    have hiter : t.iter = State.init.iter + fuel := h4 rfl
    have h0 : State.init.iter = 0 := rfl
    have hlen : t.movie.length = t.iter := by
      rw [hrun.movie_eq, writesAmong_length, succeededAmong_all movieNotOpened _ (fun _ _ => rfl)]
    have hne : t.movie ≠ [] := by
      intro hnil
      rw [hnil] at hlen
      simp at hlen
      omega
    simp [hs, usesNullStream, hm, hne]

/-- A run whose timing file was not opened is killed at the first `fprintf`. -/
theorem timesNotOpened_killed (fuel : Nat) (hf : 0 < fuel) :
    main timesNotOpened fuel = some Outcome.killed := by
  have hm : timesNotOpened.timesOpened = false := rfl
  have hs : timesNotOpened.startupThrows = false := rfl
  obtain ⟨_, h2, _, h4⟩ := loop_spec timesNotOpened fuel State.init (running_init _)
  unfold main
  rcases hl : loop timesNotOpened fuel State.init with ⟨e, t⟩
  rw [hl] at h2 h4
  cases e with
  | loopEnded => simp [hs, closeAndReturn, hm]
  | exception => simp [hs, closeAndReturn, hm]
  | fuelExhausted =>
    have hrun : Running timesNotOpened t := h2 (fun h => by cases h)
    have hiter : t.iter = State.init.iter + fuel := h4 rfl
    have h0 : State.init.iter = 0 := rfl
    have hlen : t.times_temp.length = t.iter := by
      rw [hrun.lines]; simp
    have hne : t.times_temp ≠ [] := by
      intro hnil
      rw [hnil] at hlen
      simp at hlen
      omega
    simp [hs, usesNullStream, hm, hne]

/-! ## The claims -/

/-- C1, as the code has it: when both `fopen` calls have returned a stream, with
a camera that is grabbing until `c_countOfImagesToGrab` = 93020 results have
been retrieved and stopped afterwards, no call throwing and every grab result
reporting success, `main` returns after 93020 iterations of the loop, each of
which made one `fwrite` call on the movie file, and `frames = 93020`.  Call
`i` writes from the start of the buffer of grab result `i`, with size 1 and
count `width * height` computed in `int`, which is `width * height` when that
is below 2^31. -/
theorem main_grabs_all_frames (sdk : Sdk) (fuel : Nat)
    (hopen : sdk.timesOpened = true ∧ sdk.movieOpened = true)
    (hstart : sdk.startupThrows = false)
    (hstop : StopsAfter sdk c_countOfImagesToGrab)
    (hok : ∀ i, i < c_countOfImagesToGrab → (sdk.retrieve i).succeeded = true)
    (hfuel : c_countOfImagesToGrab < fuel) :
    c_countOfImagesToGrab = 93020 ∧
    ∃ r, main sdk fuel = some (Outcome.returned r) ∧ r.exitCode = 0 ∧ r.final.iter = 93020 ∧
      r.final.movie.length = r.final.iter ∧ r.final.movie.length = 93020 ∧
      r.final.frames = 93020 ∧
      (∀ i, i < 93020 → ∃ g, sdk.retrieve i = Retrieve.result g ∧
        r.final.movie[i]? = some
          { buffer := g.buffer, size := 1,
            count := toSizeT (wrapInt32 (wrapInt32 (g.width : Int) * wrapInt32 (g.height : Int))) } ∧
        (g.width * g.height < 2 ^ 31 → r.final.movie[i]? = some
          { buffer := g.buffer, size := 1, count := g.width * g.height })) := by
  obtain ⟨hend, hiter, hrun⟩ := loop_full sdk fuel c_countOfImagesToGrab hstop (le_refl _)
    (fun i hi => isThrow_of_succeeded (hok i hi)) hfuel
  have hall := succeededAmong_all sdk c_countOfImagesToGrab hok
  have hlen : (loop sdk fuel State.init).2.movie.length = c_countOfImagesToGrab := by
    rw [hrun.movie_eq, writesAmong_length, hiter, hall]
  have hmovie : (loop sdk fuel State.init).2.movie = writesAmong sdk c_countOfImagesToGrab := by
    rw [hrun.movie_eq, hiter]
  refine ⟨count_eq, { exitCode := 0, final := (loop sdk fuel State.init).2 },
    main_of_loopEnded sdk fuel hopen hstart hend, rfl, ?_, ?_, ?_, ?_, ?_⟩
  · show (loop sdk fuel State.init).2.iter = 93020
    rw [hiter, count_eq]
  · show (loop sdk fuel State.init).2.movie.length = (loop sdk fuel State.init).2.iter
    rw [hlen, hiter]
  · show (loop sdk fuel State.init).2.movie.length = 93020
    rw [hlen, count_eq]
  · show (loop sdk fuel State.init).2.frames = 93020
    rw [hrun.frames_eq, hiter, hall, count_eq]
    rfl
  · intro i hi
    have hi' : i < c_countOfImagesToGrab := by rw [count_eq]; exact hi
    have hs := hok i hi'
    have hget := writesAmong_getElem? sdk c_countOfImagesToGrab hok i hi'
    cases hr : sdk.retrieve i with
    | throws => simp [hr, Retrieve.succeeded] at hs
    | accessorThrows => simp [hr, Retrieve.succeeded] at hs
    | result g =>
      have hg : g.grabSucceeded = true := by simpa [hr, Retrieve.succeeded] using hs
      have hcall : (loop sdk fuel State.init).2.movie[i]? = some (fwriteCall g) := by
        rw [hmovie, hget, hr]
        simp [writeOf, hg]
      refine ⟨g, rfl, hcall, fun hdim => ?_⟩
      show (loop sdk fuel State.init).2.movie[i]? = _
      rw [hcall, fwriteCall_count g hdim]

theorem main_grabs_all_frames_witness :
    ((steadyCamera.timesOpened = true ∧ steadyCamera.movieOpened = true) ∧
      steadyCamera.startupThrows = false ∧ StopsAfter steadyCamera c_countOfImagesToGrab ∧
      (∀ i, i < c_countOfImagesToGrab → (steadyCamera.retrieve i).succeeded = true) ∧
      c_countOfImagesToGrab < 93021) ∧
    (c_countOfImagesToGrab = 93020 ∧
      ∃ r, main steadyCamera 93021 = some (Outcome.returned r) ∧ r.exitCode = 0 ∧
        r.final.iter = 93020 ∧
        r.final.movie.length = r.final.iter ∧ r.final.movie.length = 93020 ∧
        r.final.frames = 93020 ∧
        (∀ i, i < 93020 → ∃ g, steadyCamera.retrieve i = Retrieve.result g ∧
          r.final.movie[i]? = some
            { buffer := g.buffer, size := 1,
              count := toSizeT (wrapInt32 (wrapInt32 (g.width : Int) * wrapInt32 (g.height : Int))) } ∧
          (g.width * g.height < 2 ^ 31 → r.final.movie[i]? = some
            { buffer := g.buffer, size := 1, count := g.width * g.height }))) :=
  ⟨⟨⟨rfl, rfl⟩, rfl, fun _ => rfl, fun _ _ => rfl, by decide⟩,
    main_grabs_all_frames steadyCamera 93021 ⟨rfl, rfl⟩ rfl (fun _ => rfl) (fun _ _ => rfl)
      (by decide)⟩

/-- C1, as stated, fails: with the camera of the claim, no call throwing and
every grab succeeding, a run in which the `fopen` of `movies/movie.bin` has
returned `NULL` is killed at its first `fwrite`; no frame is written and
`main` does not return. -/
theorem movie_not_opened_writes_nothing :
    (movieNotOpened.startupThrows = false ∧ StopsAfter movieNotOpened c_countOfImagesToGrab ∧
      ∀ i, (movieNotOpened.retrieve i).succeeded = true) ∧
    main movieNotOpened 1 = some Outcome.killed ∧
    (∀ fuel, 0 < fuel → main movieNotOpened fuel = some Outcome.killed) ∧
    ∀ fuel r, main movieNotOpened fuel ≠ some (Outcome.returned r) := by
  refine ⟨⟨rfl, fun _ => rfl, fun _ => rfl⟩, by decide, movieNotOpened_killed, ?_⟩
  intro fuel r h
  have := (main_opened movieNotOpened fuel r h).2
  cases this

/-- C2, as the code has it: in a run in which both `fopen` calls have returned
a stream, the exit code of `main` is 1 exactly when a call of the `try` block
threw (one of the calls before the loop, `RetrieveResult`, or an accessor of a
grab result), and 0 in every other case; failed grabs play no part in it.
With a camera that stops after 93020 results such a run of `main` does
return. -/
theorem main_exit_code (sdk : Sdk) (fuel : Nat)
    (hopen : sdk.timesOpened = true ∧ sdk.movieOpened = true) :
    (∀ r, main sdk fuel = some (Outcome.returned r) →
      (r.exitCode = 1 ↔ thrownWithin sdk r.final.iter) ∧
      (¬ thrownWithin sdk r.final.iter → r.exitCode = 0)) ∧
    (StopsAfter sdk c_countOfImagesToGrab → c_countOfImagesToGrab < fuel →
      ∃ r, main sdk fuel = some (Outcome.returned r)) := by
  constructor
  · intro r hr
    have hiff := loop_exception_iff sdk fuel
    rcases main_final sdk fuel r hr with ⟨hs, hcode, _⟩ | ⟨hs, hfin, hcase⟩
    · have ht : thrownWithin sdk r.final.iter := Or.inl hs
      exact ⟨⟨fun _ => ht, fun _ => hcode⟩, fun hn => absurd ht hn⟩
    · rw [hfin] at hiff
      rcases hcase with ⟨hend, hcode⟩ | ⟨hexc, hcode⟩
      · have hnot : ¬ thrownWithin sdk r.final.iter := by
          rintro (h | h)
          · rw [hs] at h; cases h
          · have := hiff.mpr h
            rw [hend] at this
            cases this
        refine ⟨⟨fun h => ?_, fun h => absurd h hnot⟩, fun _ => hcode⟩
        rw [hcode] at h
        cases h
      · have ht : thrownWithin sdk r.final.iter := Or.inr (hiff.mp hexc)
        exact ⟨⟨fun _ => ht, fun _ => hcode⟩, fun hn => absurd ht hn⟩
  · intro hstop hfuel
    exact main_returns sdk fuel hopen
      (fun _ => loop_ends sdk fuel _ (by simp [hstop _]) hfuel)

theorem main_exit_code_witness :
    (firstGrabFails.timesOpened = true ∧ firstGrabFails.movieOpened = true) ∧
    ∃ r, main firstGrabFails 93021 = some (Outcome.returned r) ∧ r.exitCode = 0 ∧
      (firstGrabFails.retrieve 0).failed = true ∧ r.final.iter = 93020 := by
  obtain ⟨hcode, hret⟩ := main_exit_code firstGrabFails 93021 ⟨rfl, rfl⟩
  obtain ⟨r, hr⟩ := hret (fun _ => rfl) (by decide)
  have hfull := loop_full firstGrabFails 93021 c_countOfImagesToGrab (fun _ => rfl) (le_refl _)
    (fun _ _ => rfl) (by decide)
  rcases main_final firstGrabFails 93021 r hr with ⟨hs, _⟩ | ⟨_, hfin, _⟩
  · cases hs
  · have hiter : r.final.iter = 93020 := by rw [← hfin, hfull.2.1, count_eq]
    refine ⟨⟨rfl, rfl⟩, r, hr, (hcode r hr).2 ?_, rfl, hiter⟩
    rintro (h | ⟨i, _, h⟩)
    · cases h
    · cases h

/-- C2, as stated, fails: a run in which the `fopen` of the timing file has
returned `NULL` and no call throws is killed at its first `fprintf`; `main`
returns neither 0 nor 1. -/
theorem times_not_opened_no_exit_code :
    (∀ n, ¬ thrownWithin timesNotOpened n) ∧
    main timesNotOpened 1 = some Outcome.killed ∧
    (∀ fuel, 0 < fuel → main timesNotOpened fuel = some Outcome.killed) ∧
    ∀ fuel r, main timesNotOpened fuel ≠ some (Outcome.returned r) := by
  refine ⟨?_, by decide, timesNotOpened_killed, ?_⟩
  · rintro n (h | ⟨i, _, h⟩)
    · cases h
    · cases h
  · intro fuel r h
    have := (main_opened timesNotOpened fuel r h).1
    cases this

/-- C3, as the code has it: when `main` has returned without an exception, the
timing file has one line for each grab result retrieved, that is one for each
frame written to the movie file and one for each failed grab; the two counts
are equal exactly when no grab failed. -/
theorem timing_lines_per_result (sdk : Sdk) (fuel : Nat) (r : Run)
    (h : main sdk fuel = some (Outcome.returned r)) (hno : ¬ thrownWithin sdk r.final.iter) :
    r.final.times_temp.length = r.final.iter ∧
    r.final.movie.length = succeededAmong sdk r.final.iter ∧
    r.final.times_temp.length = r.final.movie.length + failedAmong sdk r.final.iter ∧
    (r.final.times_temp.length = r.final.movie.length ↔
      ∀ i, i < r.final.iter → (sdk.retrieve i).failed = false) := by
  obtain ⟨_, hrun, _⟩ := main_no_throw sdk fuel r h hno
  have hlines : r.final.times_temp.length = r.final.iter := by
    rw [hrun.lines]; simp
  have hmovie : r.final.movie.length = succeededAmong sdk r.final.iter := by
    rw [hrun.movie_eq, writesAmong_length]
  have hsum := succeeded_add_failed sdk r.final.iter hrun.results
  have hzero := failedAmong_eq_zero_iff sdk r.final.iter
  refine ⟨hlines, hmovie, by omega, ?_⟩
  constructor
  · intro heq
    exact hzero.mp (by omega)
  · intro hall
    have := hzero.mpr hall
    omega

theorem timing_lines_per_result_witness :
    ∃ r, main firstGrabFails 93021 = some (Outcome.returned r) ∧
      ¬ thrownWithin firstGrabFails r.final.iter ∧
      r.final.times_temp.length = r.final.iter ∧
      r.final.movie.length = succeededAmong firstGrabFails r.final.iter ∧
      r.final.times_temp.length = r.final.movie.length + failedAmong firstGrabFails r.final.iter ∧
      (r.final.times_temp.length = r.final.movie.length ↔
        ∀ i, i < r.final.iter → (firstGrabFails.retrieve i).failed = false) := by
  obtain ⟨r, hr, _, hno, _, _⟩ := firstGrabFails_run 93021 (by decide)
  exact ⟨r, hr, hno, timing_lines_per_result firstGrabFails 93021 r hr hno⟩

/-- C3, as stated, fails: in the run of `firstGrabFails` (the camera stops after
93020 results, nothing throws, the first grab fails and the others succeed)
the timing file has 93020 lines and the movie file 93019 frames. -/
theorem timing_lines_exceed_frames :
    ∃ r, main firstGrabFails 93021 = some (Outcome.returned r) ∧ r.exitCode = 0 ∧
      ¬ thrownWithin firstGrabFails r.final.iter ∧
      r.final.times_temp.length = 93020 ∧ r.final.movie.length = 93019 ∧
      r.final.times_temp.length ≠ r.final.movie.length := by
  obtain ⟨r, hr, hcode, hno, hiter, hrun⟩ := firstGrabFails_run 93021 (by decide)
  have hlines : r.final.times_temp.length = 93020 := by
    rw [hrun.lines, hiter]; simp
  have hmovie : r.final.movie.length = 93019 := by
    rw [hrun.movie_eq, writesAmong_length, hiter]
    exact succeededAmong_firstGrabFails 93019
  exact ⟨r, hr, hcode, hno, hlines, hmovie, by omega⟩

/-- C6: the first field of a timing line is the frame index.  For every state
the loop reaches (so for the final state of every run) and every `k`, counted
from 0, the first field of line `k` of the timing file is the number of the
`k` grab results retrieved before it that reported success, which is the value
of `frames` at that point.  After a failed grab the next line repeats the
index, the failed grab having left `frames` and the movie file as they were;
when all grabs before line `k` succeeded the index is `k`. -/
theorem timing_line_index (sdk : Sdk) (fuel k : Nat) (l : TimingLine)
    (hl : (loop sdk fuel State.init).2.times_temp[k]? = some l) :
    l.frames = (succeededAmong sdk k : Int) ∧
    (loop sdk fuel State.init).2.frames =
      (succeededAmong sdk (loop sdk fuel State.init).2.iter : Int) ∧
    ((sdk.retrieve k).failed = true →
      ∀ l', (loop sdk fuel State.init).2.times_temp[k + 1]? = some l' → l'.frames = l.frames) ∧
    ((∀ i, i < k → (sdk.retrieve i).succeeded = true) → l.frames = (k : Int)) ∧
    (∀ (s : State) (r : GrabResult), sdk.retrieve s.iter = Retrieve.result r →
      r.grabSucceeded = false →
      ∃ s', body sdk s = Except.ok s' ∧ s'.frames = s.frames ∧ s'.movie = s.movie ∧
        s'.times_temp = s.times_temp ++ [timingLine sdk s]) := by
  have hl0 := loop_line_eq sdk fuel k l hl
  have hfr : l.frames = (succeededAmong sdk k : Int) := by rw [hl0]; rfl
  refine ⟨hfr, (loop_counts sdk fuel).frames_eq, ?_, ?_, ?_⟩
  · intro hfail l' hl'
    have hl1 := loop_line_eq sdk fuel (k + 1) l' hl'
    rw [hfr, hl1]
    show ((succeededAmong sdk (k + 1) : Nat) : Int) = succeededAmong sdk k
    rw [succeededAmong_succ, not_succeeded_of_failed hfail]
    simp
  · intro hall
    rw [hfr, succeededAmong_all sdk k hall]
  · intro s r hr hfail
    refine ⟨{ s with iter := s.iter + 1, times_temp := s.times_temp ++ [timingLine sdk s] },
      ?_, rfl, rfl, rfl⟩
    unfold body
    rw [hr]
    simp [hfail]

theorem timing_line_index_witness :
    (loop firstGrabFails 3 State.init).2.times_temp[1]? =
        some { frames := 0, t_temp_nsec := 999999990, t_diff_nsec := 5,
               diff_nsec := -999999985, time_span := 2000000000 } ∧
      (loop firstGrabFails 3 State.init).2.times_temp[2]? =
        some { frames := 1, t_temp_nsec := 999999990, t_diff_nsec := 5,
               diff_nsec := -999999985, time_span := 3000000000 } ∧
      ((0 : Int) = (succeededAmong firstGrabFails 1 : Int)) :=
  ⟨by decide, by decide,
    (timing_line_index firstGrabFails 3 1
      { frames := 0, t_temp_nsec := 999999990, t_diff_nsec := 5,
        diff_nsec := -999999985, time_span := 2000000000 } (by decide)).1⟩

/-- C8: in every timing line the second and third fields are the `tv_nsec` of
the clock readings before and after `RetrieveResult`, and, these being in
[0, 999999999], the fourth is the third minus the second.  It lies in
[-999999999, 999999999]; it is the elapsed time in nanoseconds exactly when
the two readings have the same `tv_sec`; and it is negative in a run whose
first `RetrieveResult` starts 10 ns before a full second and ends 5 ns after
it. -/
theorem timing_line_nsec (sdk : Sdk) (fuel k : Nat) (l : TimingLine)
    (hl : (loop sdk fuel State.init).2.times_temp[k]? = some l)
    (hb : (sdk.clockBefore k).valid) (ha : (sdk.clockAfter k).valid) :
    l.t_temp_nsec = (sdk.clockBefore k).tv_nsec ∧
    l.t_diff_nsec = (sdk.clockAfter k).tv_nsec ∧
    l.diff_nsec = l.t_diff_nsec - l.t_temp_nsec ∧
    -999999999 ≤ l.diff_nsec ∧ l.diff_nsec ≤ 999999999 ∧
    (l.diff_nsec = elapsedNs (sdk.clockBefore k) (sdk.clockAfter k) ↔
      (sdk.clockBefore k).tv_sec = (sdk.clockAfter k).tv_sec) ∧
    (∃ l', (loop steadyCamera 2 State.init).2.times_temp[0]? = some l' ∧
      (steadyCamera.clockBefore 0).valid ∧ (steadyCamera.clockAfter 0).valid ∧
      0 < elapsedNs (steadyCamera.clockBefore 0) (steadyCamera.clockAfter 0) ∧
      l'.diff_nsec < 0) := by
  have hl0 := loop_line_eq sdk fuel k l hl
  obtain ⟨hb0, hb1⟩ := hb
  obtain ⟨ha0, ha1⟩ := ha
  have h2 : l.t_temp_nsec = (sdk.clockBefore k).tv_nsec := by rw [hl0]; rfl
  have h3 : l.t_diff_nsec = (sdk.clockAfter k).tv_nsec := by rw [hl0]; rfl
  have h4 : l.diff_nsec = (sdk.clockAfter k).tv_nsec - (sdk.clockBefore k).tv_nsec := by
    rw [hl0]
    show wrapInt64 ((sdk.clockAfter k).tv_nsec - (sdk.clockBefore k).tv_nsec) = _
    exact wrapInt64_of_range _ (by omega) (by omega)
  refine ⟨h2, h3, by rw [h4, h2, h3], by omega, by omega, ?_, ?_⟩
  · rw [h4]
    unfold elapsedNs
    constructor
    · intro h; omega
    · intro h; rw [h]; simp
  · exact ⟨{ frames := 0, t_temp_nsec := 999999990, t_diff_nsec := 5,
             diff_nsec := -999999985, time_span := 1000000000 },
      by decide, by decide, by decide, by decide, by decide⟩

theorem timing_line_nsec_witness :
    ((loop steadyCamera 2 State.init).2.times_temp[1]? =
        some { frames := 1, t_temp_nsec := 999999990, t_diff_nsec := 5,
               diff_nsec := -999999985, time_span := 2000000000 } ∧
      (steadyCamera.clockBefore 1).valid ∧ (steadyCamera.clockAfter 1).valid) ∧
    (-999999985 : Int) = 5 - 999999990 :=
  ⟨⟨by decide, by decide, by decide⟩,
    (timing_line_nsec steadyCamera 2 1
      { frames := 1, t_temp_nsec := 999999990, t_diff_nsec := 5,
        diff_nsec := -999999985, time_span := 2000000000 }
      (by decide) (by decide) (by decide)).2.2.1⟩

/-- C7: for a successful grab result of width `w` and height `h` with
`w * h < 2^31` the loop makes one `fwrite` call, of `w * h` elements of size 1
from the start of the image buffer.  Hence, when every successful grab has
these dimensions and at least `w * h` bytes in its buffer, and no write is
short, the movie file of a run with `n` successful grabs has `n * (w * h)`
bytes, and the bytes at offsets `i * (w * h)` up to `(i + 1) * (w * h)` are
the first `w * h` bytes of the buffer of the grab of index `i`. -/
theorem movie_frame_bytes (sdk : Sdk) (fuel w h : Nat) (hwh : w * h < 2 ^ 31)
    (hdim : ∀ i r, sdk.retrieve i = Retrieve.result r → r.grabSucceeded = true →
      r.width = w ∧ r.height = h ∧ w * h ≤ r.buffer.length) :
    (∀ r : GrabResult, r.width * r.height < 2 ^ 31 →
      fwriteCall r = { buffer := r.buffer, size := 1, count := r.width * r.height }) ∧
    (∀ (s : State) (r : GrabResult), sdk.retrieve s.iter = Retrieve.result r →
      r.grabSucceeded = true →
      ∃ s', body sdk s = Except.ok s' ∧ s'.movie = s.movie ++ [fwriteCall r]) ∧
    (loop sdk fuel State.init).2.movie.length =
      succeededAmong sdk (loop sdk fuel State.init).2.iter ∧
    (∀ c, c ∈ (loop sdk fuel State.init).2.movie → c.size = 1 ∧ c.count = w * h) ∧
    (fileBytes (loop sdk fuel State.init).2.movie).length =
      (loop sdk fuel State.init).2.movie.length * (w * h) ∧
    (∀ i c, (loop sdk fuel State.init).2.movie[i]? = some c →
      ((fileBytes (loop sdk fuel State.init).2.movie).drop (i * (w * h))).take (w * h) =
        c.buffer.take (w * h)) := by
  have ht := loop_counts sdk fuel
  have hcall : ∀ c, c ∈ (loop sdk fuel State.init).2.movie →
      c.size = 1 ∧ c.count = w * h ∧ w * h ≤ c.buffer.length := by
    intro c hc
    rw [ht.movie_eq] at hc
    obtain ⟨i, r, _, hr, hok, hceq⟩ := mem_writesAmong sdk _ c hc
    obtain ⟨hw, hh, hbuf⟩ := hdim i r hr hok
    rw [hceq, fwriteCall_count r (by rw [hw, hh]; exact hwh), hw, hh]
    exact ⟨rfl, rfl, hbuf⟩
  have hbytes : ∀ c, c ∈ (loop sdk fuel State.init).2.movie →
      c.bytes = c.buffer.take (w * h) := by
    intro c hc
    obtain ⟨h1, h2, _⟩ := hcall c hc
    unfold FwriteCall.bytes
    rw [h1, h2, Nat.one_mul]
  have huni : ∀ x, x ∈ (loop sdk fuel State.init).2.movie.map FwriteCall.bytes →
      x.length = w * h := by
    intro x hx
    rw [List.mem_map] at hx
    obtain ⟨c, hc, hcx⟩ := hx
    rw [← hcx, hbytes c hc, List.length_take]
    exact Nat.min_eq_left (hcall c hc).2.2
  refine ⟨fwriteCall_count, ?_, ?_, fun c hc => ⟨(hcall c hc).1, (hcall c hc).2.1⟩, ?_, ?_⟩
  · intro s r hr hok
    unfold body
    rw [hr]
    simp only [hok, if_true]
    exact ⟨_, rfl, onSuccess_movie r _⟩
  · rw [ht.movie_eq, writesAmong_length]
  · unfold fileBytes
    rw [flatten_length_uniform _ _ huni, List.length_map]
  · intro i c hc
    unfold fileBytes
    have hmap : ((loop sdk fuel State.init).2.movie.map FwriteCall.bytes)[i]? =
        some c.bytes := by
      rw [List.getElem?_map, hc]
      rfl
    rw [flatten_segment _ _ huni i _ hmap]
    exact hbytes c (List.getElem?_mem hc)

theorem movie_frame_bytes_witness :
    ((2 * 3 < 2 ^ 31) ∧
      (∀ i r, steadyCamera.retrieve i = Retrieve.result r → r.grabSucceeded = true →
        r.width = 2 ∧ r.height = 3 ∧ 2 * 3 ≤ r.buffer.length)) ∧
    fileBytes (loop steadyCamera 3 State.init).2.movie =
      [1, 2, 3, 4, 5, 6, 1, 2, 3, 4, 5, 6, 1, 2, 3, 4, 5, 6] ∧
    (fileBytes (loop steadyCamera 3 State.init).2.movie).length =
      (loop steadyCamera 3 State.init).2.movie.length * (2 * 3) :=
  ⟨⟨by decide, fun _ r hr _ => by cases hr; decide⟩, by decide,
    (movie_frame_bytes steadyCamera 3 2 3 (by decide)
      (fun _ r hr _ => by cases hr; decide)).2.2.2.2.1⟩

end Grab
